import Mathlib

set_option maxHeartbeats 1000000
set_option maxRecDepth 4000

/-!
Verification development for the game-logic core of the impostor party-game
app (module `game-store`): role/word assignment engine, category management,
and configuration persistence.

Modelling conventions.

* Randomness.  `secureRandom(max)` is asynchronous and has two paths (secure
  bytes, or a `Math.random()` fallback).  The function itself is embedded in
  `secureRandom` below, with the outcome of the entropy call and the value of
  `Math.random()` as explicit parameters.  The game functions
  (`shuffleArray`, `selectUniqueIndices`, `startNewGame`) consume successive
  draws; these are abstracted by a *tape* `List Nat`: one tape cell per call
  of `secureRandom(max)`, the call returning `cell % max`.  Both real paths
  return a value of this shape for every positive `max`
  (`secureRandom_exists_draw` below), and every value in `[0, max)` is of
  this shape, so properties proved for all tapes hold for all real
  executions.

* Storage.  The external key→string store is opaque; the blob stored under a
  key is modelled at the JSON level (`StoredBlob`): either a string that does
  not parse (`malformed`, covering the corrupted-storage scenario) or a
  parsed JSON value.  `JSON.parse ∘ JSON.stringify` is the identity on the
  values the code writes, so serialization is not modelled character by
  character.

* Mutable module state.  The in-memory `CATEGORIES` object is threaded as an
  explicit value of type `Categories`, an insertion-ordered association list
  mirroring a string-keyed JS object (JS objects preserve insertion order
  for non-numeric string keys, which `Object.entries` and spreads follow).
-/

/- ============================================================
   secureRandom (lines 374-390 of the store)
   ============================================================ -/

/-- `new DataView(randomBytes.buffer).getUint32(0, true)`: the four random
bytes read as an unsigned 32-bit little-endian integer. -/
def getUint32LE (b0 b1 b2 b3 : Nat) : Nat :=
  b0 + 256 * b1 + 65536 * b2 + 16777216 * b3

/-- Outcome of `await withTimeout(Crypto.getRandomBytesAsync(4), 2000, null)`:
either four bytes arrived, or the 2s timeout resolved `null`, or the call
threw (caught silently by the surrounding `try`). -/
inductive EntropyOutcome where
  | ok (b0 b1 b2 b3 : Nat)
  | timedOut
  | threw
deriving DecidableEq

/-- `secureRandom(max)`.  Primary path: the 4 entropy bytes as a u32
little-endian value, reduced `% max`.  Fallback path (timeout or exception):
`Math.floor(Math.random() * max)`, with `q` the value `Math.random()`
returned (a float in `[0,1)`, modelled as a rational). -/
def secureRandom (e : EntropyOutcome) (q : ℚ) (max : Nat) : ℤ :=
  match e with
  | .ok b0 b1 b2 b3 => ((getUint32LE b0 b1 b2 b3 % max : Nat) : ℤ)
  | .timedOut => Int.floor (q * max)
  | .threw => Int.floor (q * max)

/-- One abstract draw of `secureRandom(max)` from the entropy tape (see the
header comment): the next cell `r` yields `r % max`.  An exhausted tape
draws 0. -/
def tapeDraw (max : Nat) : List Nat → Nat × List Nat
  | [] => (0, [])
  | r :: rest => (r % max, rest)

/- ============================================================
   shuffleArray (lines 395-402): Fisher-Yates
   ============================================================ -/

/-- `[shuffled[i], shuffled[j]] = [shuffled[j], shuffled[i]]` — the swap in
the Fisher-Yates loop body (out-of-range indices never occur in the loop;
the model leaves the list unchanged there). -/
def swapAt (l : List α) (i j : Nat) : List α :=
  match l[i]?, l[j]? with
  | some x, some y => (l.set i y).set j x
  | _, _ => l

/-- The loop `for (let i = shuffled.length - 1; i > 0; i--)`: at index
`k+1` it draws `j = secureRandom(i + 1)` and swaps positions `i` and `j`. -/
def shuffleLoop : List α → Nat → List Nat → List α × List Nat
  | l, 0, tape => (l, tape)
  | l, k + 1, tape =>
    shuffleLoop (swapAt l (k + 1) (tapeDraw (k + 2) tape).1) k (tapeDraw (k + 2) tape).2

/-- `shuffleArray`: copies the input (`[...array]`; the model is pure, so
the input is never mutated) and runs the Fisher-Yates loop from the last
index down to 1. -/
def shuffleArray (array : List α) (tape : List Nat) : List α × List Nat :=
  shuffleLoop array (array.length - 1) tape

/- ============================================================
   selectUniqueIndices (lines 767-778)
   ============================================================ -/

/-- The loop `for (let i = 0; i < count && available.length > 0; i++)`:
draw a position in the current pool, push the index found there, and
`splice` it out of the pool. -/
def selectLoop : Nat → List Nat → List Nat → List Nat × List Nat
  | 0, _, tape => ([], tape)
  | n + 1, available, tape =>
    if available.isEmpty then ([], tape)
    else
      let randomPos := (tapeDraw available.length tape).1
      let tape' := (tapeDraw available.length tape).2
      ((available.getD randomPos 0) :: (selectLoop n (available.eraseIdx randomPos) tape').1,
        (selectLoop n (available.eraseIdx randomPos) tape').2)

/-- `selectUniqueIndices(count, max, exclude)`: the pool is
`Array.from({length: max}, (_, i) => i).filter(i => !exclude.includes(i))`. -/
def selectUniqueIndices (count max : Nat) (exclude : List Nat) (tape : List Nat) :
    List Nat × List Nat :=
  selectLoop count ((List.range max).filter (fun i => !(exclude.contains i))) tape

/- ============================================================
   Game variants (lines 278-350)
   ============================================================ -/

inductive GameVariant where
  | classic
  | doubleImpostor
  | accomplices
  | jester
  | chaos
deriving DecidableEq

inductive PlayerRole where
  | citizen
  | impostor
  | jester
deriving DecidableEq

structure PlayerRoleInfo where
  role : PlayerRole
  knowsWord : Bool
  partnerName : Option String := none
deriving DecidableEq

structure GameVariantConfig where
  id : GameVariant
  name : String
  emoji : String
  description : String
  minPlayers : Nat
  impostorCount : Nat
  hasJester : Bool
  impostorsKnowEachOther : Bool
deriving DecidableEq

def GAME_VARIANTS : GameVariant → GameVariantConfig
  | .classic =>
    { id := .classic, name := "Clásico", emoji := "🎭",
      description := "1 impostor que no conoce la palabra",
      minPlayers := 3, impostorCount := 1, hasJester := false,
      impostorsKnowEachOther := false }
  | .doubleImpostor =>
    { id := .doubleImpostor, name := "Doble Agente", emoji := "👺👺",
      description := "2 impostores que NO se conocen entre sí",
      minPlayers := 5, impostorCount := 2, hasJester := false,
      impostorsKnowEachOther := false }
  | .accomplices =>
    { id := .accomplices, name := "Compinches", emoji := "🤝",
      description := "2 impostores que SÍ se conocen entre sí",
      minPlayers := 5, impostorCount := 2, hasJester := false,
      impostorsKnowEachOther := true }
  | .jester =>
    { id := .jester, name := "Bufón", emoji := "🤡",
      description := "1 impostor + 1 bufón que quiere ser votado",
      minPlayers := 4, impostorCount := 1, hasJester := true,
      impostorsKnowEachOther := false }
  | .chaos =>
    { id := .chaos, name := "Caos Total", emoji := "🌪️",
      description := "2 impostores + 1 bufón (máxima confusión)",
      minPlayers := 6, impostorCount := 2, hasJester := true,
      impostorsKnowEachOther := false }

/- ============================================================
   Categories data model (lines 110-270)
   ============================================================ -/

structure Category where
  emoji : String
  name : String
  words : List String
  isCustom : Bool := false
deriving DecidableEq

/-- `Record<string, Category>`: an insertion-ordered string-keyed object. -/
abbrev Categories := List (String × Category)

/-- `categories[key]` property lookup (first — in JS the only — entry with
the key). -/
def catGet (cats : Categories) (key : String) : Option Category :=
  (cats.find? (fun e => e.1 == key)).map (fun e => e.2)

/-- `categories[key] = value` (or the equivalent object-spread override):
an existing key keeps its position, a new key is appended.  JS objects have
unique keys, so replacing the first occurrence is exact. -/
def catSet : Categories → String → Category → Categories
  | [], key, c => [(key, c)]
  | e :: t, key, c => if e.1 == key then (key, c) :: t else e :: catSet t key c

/-- `delete categories[key]`. -/
def catDelete (cats : Categories) (key : String) : Categories :=
  cats.filter (fun e => !(e.1 == key))

/-- `getAllWords` (lines 250-254): all words of the non-`mixta` categories,
in `Object.entries` (= insertion) order. -/
def getAllWords (categories : Categories) : List String :=
  (categories.filter (fun e => !(e.1 == "mixta"))).flatMap (fun e => e.2.words)

/-- `updateMixedCategory` (lines 259-267): rebuild `mixta`'s word list from
all other categories.  (If `mixta` were absent the spread
`{...categories.mixta}` would spread `undefined`; the `getD` default mirrors
the resulting bare object — never reached, since `mixta` ships built in.) -/
def updateMixedCategory (categories : Categories) : Categories :=
  let base := (catGet categories "mixta").getD { emoji := "", name := "", words := [] }
  catSet categories "mixta" { base with words := getAllWords categories }

def DEFAULT_CATEGORIES : Categories :=
  [ ("mixta", { emoji := "🎲", name := "Mixta", words := [] }),
    ("lugares", { emoji := "📍", name := "Lugares", words :=
      ["Playa", "Submarino", "Escuela", "Circo", "Banco", "Avión", "Hospital",
       "Base Militar", "Supermercado", "Hotel", "Restaurante", "Aeropuerto",
       "Parque", "Castillo", "Museo", "Cárcel", "Estadio", "Biblioteca",
       "Cine", "Teatro", "Gimnasio", "Iglesia", "Cementerio", "Zoológico",
       "Acuario", "Casino", "Discoteca", "Spa", "Oficina", "Fábrica"] }),
    ("comida", { emoji := "🍕", name := "Comida", words :=
      ["Hamburguesa", "Sushi", "Pizza", "Tacos", "Helado", "Ensalada",
       "Pastas", "Sopa", "Empanada", "Hot Dog", "Arroz", "Pollo",
       "Pan", "Queso", "Pastel", "Galletas", "Chocolate", "Cereal",
       "Nachos", "Burrito", "Paella", "Ceviche", "Ramen", "Curry",
       "Fondue", "Croissant", "Waffles", "Pancakes", "Donas", "Churros"] }),
    ("animales", { emoji := "🦁", name := "Animales", words :=
      ["Perro", "Gato", "Elefante", "Tiburón", "Águila", "Serpiente",
       "Pingüino", "León", "Tigre", "Mono", "Delfín", "Ballena",
       "Caballo", "Oso", "Zorro", "Lobo", "Canguro", "Koala",
       "Jirafa", "Rinoceronte", "Hipopótamo", "Cocodrilo", "Tortuga", "Pulpo",
       "Cangrejo", "Mariposa", "Abeja", "Araña", "Murciélago", "Búho"] }),
    ("profesiones", { emoji := "👨‍⚕️", name := "Profesiones", words :=
      ["Doctor", "Maestro", "Policía", "Bombero", "Chef", "Piloto",
       "Ingeniero", "Abogado", "Arquitecto", "Enfermero", "Dentista",
       "Programador", "Mecánico", "Electricista", "Veterinario", "Psicólogo",
       "Periodista", "Fotógrafo", "Músico", "Actor", "Director", "Escritor",
       "Científico", "Astronauta", "Atleta", "Granjero", "Pescador", "Panadero"] }),
    ("objetos", { emoji := "📱", name := "Objetos", words :=
      ["Teléfono", "Computadora", "Llave", "Mochila", "Reloj", "Lápiz",
       "Cuaderno", "Silla", "Mesa", "Televisor", "Cámara", "Botella",
       "Audífonos", "Linterna", "Paraguas", "Espejo", "Tijeras", "Martillo",
       "Cuchillo", "Tenedor", "Cuchara", "Plato", "Vaso", "Taza",
       "Almohada", "Cobija", "Toalla", "Jabón", "Cepillo", "Peine"] }),
    ("transporte", { emoji := "🚗", name := "Transporte", words :=
      ["Carro", "Moto", "Bicicleta", "Avión", "Barco", "Submarino",
       "Tren", "Metro", "Autobús", "Camión", "Helicóptero", "Patineta",
       "Taxi", "Ambulancia", "Camioneta", "Limusina", "Yate", "Canoa",
       "Globo Aerostático", "Cohete", "Teleférico", "Trineo", "Patines", "Scooter"] }),
    ("emociones", { emoji := "😊", name := "Emociones", words :=
      ["Felicidad", "Tristeza", "Enojo", "Miedo", "Sorpresa", "Nervios",
       "Vergüenza", "Orgullo", "Celos", "Ansiedad", "Calma", "Emoción",
       "Amor", "Odio", "Confusión", "Aburrimiento", "Esperanza", "Nostalgia",
       "Gratitud", "Envidia", "Frustración", "Satisfacción", "Melancolía", "Euforia"] }),
    ("acciones", { emoji := "🏃", name := "Acciones", words :=
      ["Correr", "Saltar", "Dormir", "Comer", "Nadar", "Cantar",
       "Bailar", "Leer", "Escribir", "Gritar", "Pensar", "Reír",
       "Llorar", "Cocinar", "Pintar", "Dibujar", "Fotografiar", "Conducir",
       "Volar", "Escalar", "Bucear", "Esquiar", "Patinar", "Surfear",
       "Meditar", "Rezar", "Aplaudir", "Silbar", "Bostezar", "Estornudar"] }),
    ("peliculas", { emoji := "🎬", name := "Películas", words :=
      ["Titanic", "Avatar", "Matrix", "Inception", "Gladiador", "Forrest Gump",
       "El Padrino", "Jurassic Park", "Toy Story", "Frozen", "Coco", "Shrek",
       "Harry Potter", "Star Wars", "El Rey León", "Avengers", "Batman", "Superman",
       "Spiderman", "Iron Man", "Terminator", "Rocky", "Karate Kid", "ET"] }),
    ("deportes", { emoji := "⚽", name := "Deportes", words :=
      ["Fútbol", "Básquetbol", "Tenis", "Béisbol", "Golf", "Natación",
       "Boxeo", "Karate", "Judo", "Ciclismo", "Atletismo", "Gimnasia",
       "Voleibol", "Rugby", "Hockey", "Esquí", "Snowboard", "Surf",
       "Escalada", "Paracaidismo", "Buceo", "Polo", "Esgrima", "Arquería"] }),
    ("musica", { emoji := "🎵", name := "Música", words :=
      ["Guitarra", "Piano", "Batería", "Violín", "Trompeta", "Saxofón",
       "Flauta", "Acordeón", "Arpa", "Rock", "Pop", "Jazz",
       "Salsa", "Reggaeton", "Hip Hop", "Clásica", "Electrónica", "Country",
       "Blues", "Metal", "Punk", "Ópera", "Mariachi", "Cumbia"] }) ]

/- ============================================================
   startNewGame (lines 783-856)
   ============================================================ -/

/-- The callback of `shuffledPlayers.map((_, index) => ...)` building one
player's role record (lines 805-835). -/
def buildPlayerRole (variantConfig : GameVariantConfig) (shuffledPlayers : List String)
    (impostorIndices : List Nat) (jesterIndex : Int) (index : Nat) : PlayerRoleInfo :=
  if impostorIndices.contains index then
    { role := .impostor, knowsWord := false,
      partnerName :=
        if variantConfig.impostorsKnowEachOther && decide (1 < variantConfig.impostorCount) then
          match impostorIndices.find? (fun i => !(i == index)) with
          | some partnerIndex => some (shuffledPlayers.getD partnerIndex "")
          | none => none
        else none }
  else if (index : Int) == jesterIndex then
    { role := .jester, knowsWord := true }
  else
    { role := .citizen, knowsWord := true }

structure Round where
  shuffledPlayers : List String
  impostorIndices : List Nat
  jesterIndex : Int
  playerRoles : List PlayerRoleInfo
  secretWord : String
  starterPlayer : String
deriving DecidableEq

/-- `startNewGame(players, category, variant)`.  `cats` is the in-memory
`CATEGORIES` object at call time; `tape` feeds the `secureRandom` draws in
call order (shuffle draws, impostor draws, jester draw, word draw, starter
draw). -/
def startNewGame (players : List String) (category : String) (variant : GameVariant)
    (cats : Categories) (tape : List Nat) : Round :=
  let variantConfig := GAME_VARIANTS variant
  let shuffledPlayers := (shuffleArray players tape).1
  let t1 := (shuffleArray players tape).2
  let playerCount := shuffledPlayers.length
  let impostorIndices := (selectUniqueIndices variantConfig.impostorCount playerCount [] t1).1
  let t2 := (selectUniqueIndices variantConfig.impostorCount playerCount [] t1).2
  let jesterIndex : Int :=
    if variantConfig.hasJester then
      (((selectUniqueIndices 1 playerCount impostorIndices t2).1.head?).map Int.ofNat).getD (-1)
    else -1
  let t3 :=
    if variantConfig.hasJester then (selectUniqueIndices 1 playerCount impostorIndices t2).2
    else t2
  let playerRoles := shuffledPlayers.mapIdx (fun index _ =>
    buildPlayerRole variantConfig shuffledPlayers impostorIndices jesterIndex index)
  let words :=
    match catGet cats category with
    | some c => c.words
    | none => ((catGet cats "mixta").map (fun c : Category => c.words)).getD []
  let secretWord := words.getD (tapeDraw words.length t3).1 ""
  let t4 := (tapeDraw words.length t3).2
  let starterPlayer := shuffledPlayers.getD (tapeDraw playerCount t4).1 ""
  { shuffledPlayers := shuffledPlayers, impostorIndices := impostorIndices,
    jesterIndex := jesterIndex, playerRoles := playerRoles,
    secretWord := secretWord, starterPlayer := starterPlayer }

/- ============================================================
   Category store operations (lines 559-760).

   Each operation mutates the module-level `CATEGORIES` and then fires an
   asynchronous `saveCustomCategories()`; only the in-memory state matters
   for the invariants below, so each is embedded as a function
   `... → Categories → Categories` on that state (the boolean result is kept
   where the source returns one).
   ============================================================ -/

/-- JS object spread `{ ...d, ...c }`: the keys of `d` in order, values
overridden by `c` where present, then the keys only in `c` appended in
`c`'s order. -/
def objMerge (d c : Categories) : Categories :=
  d.map (fun e =>
    match c.find? (fun e' => e'.1 == e.1) with
    | some e' => (e.1, e'.2)
    | none => e)
  ++ c.filter (fun e => !(d.any (fun e' => e'.1 == e.1)))

/-- `loadCustomCategories` (lines 559-593), in-memory effect.  `stored` is
the result of reading and shape-validating the customization blob: `some`
valid categories, or `none` (absent / unparsable / invalid, in which case
the corrupted entry is also removed from storage). -/
def loadCustomCategories (stored : Option Categories) : Categories :=
  match stored with
  | some customCategories => updateMixedCategory (objMerge DEFAULT_CATEGORIES customCategories)
  | none => updateMixedCategory DEFAULT_CATEGORIES

/-- `updateCategoryWords` (lines 644-655). -/
def updateCategoryWords (key : String) (words : List String) (cats : Categories) : Categories :=
  if key = "mixta" then cats
  else
    match catGet cats key with
    | some c => updateMixedCategory (catSet cats key { c with words := words })
    | none => cats

/-- `addWordToCategory` (lines 660-668). -/
def addWordToCategory (key word : String) (cats : Categories) : Categories :=
  if key = "mixta" then cats
  else
    match catGet cats key with
    | some c =>
      if c.words.contains word then cats
      else updateMixedCategory (catSet cats key { c with words := c.words ++ [word] })
    | none => cats

/-- `removeWordFromCategory` (lines 673-681). -/
def removeWordFromCategory (key word : String) (cats : Categories) : Categories :=
  if key = "mixta" then cats
  else
    match catGet cats key with
    | some c =>
      updateMixedCategory (catSet cats key { c with words := c.words.filter (fun w => !(w == word)) })
    | none => cats

/-- `createCategory` (lines 686-703). -/
def createCategory (key name emoji : String) (words : List String) (cats : Categories) :
    Bool × Categories :=
  match catGet cats key with
  | some _ => (false, cats)
  | none =>
    (true, updateMixedCategory
      (catSet cats key { emoji := emoji, name := name, words := words, isCustom := true }))

/-- `deleteCategory` (lines 708-716). -/
def deleteCategory (key : String) (cats : Categories) : Bool × Categories :=
  if key = "mixta" then (false, cats)
  else if ((catGet cats key).map (fun c => c.isCustom)).getD false then
    (true, updateMixedCategory (catDelete cats key))
  else (false, cats)

/-- `updateCategoryMeta` (lines 721-734).  Note: this is the one mutation
that does *not* call `updateMixedCategory` — it changes only name/emoji. -/
def updateCategoryMeta (key : String) (nameU emojiU : Option String) (cats : Categories) :
    Categories :=
  if key = "mixta" then cats
  else
    match catGet cats key with
    | some c => catSet cats key { c with name := nameU.getD c.name, emoji := emojiU.getD c.emoji }
    | none => cats

/-- `resetCategoryToDefault` (lines 754-760). -/
def resetCategoryToDefault (key : String) (cats : Categories) : Categories :=
  if key = "mixta" then cats
  else
    match catGet DEFAULT_CATEGORIES key with
    | some d => updateMixedCategory (catSet cats key d)
    | none => cats

/-- `resetCategoriesToDefault` (lines 628-632), in-memory effect. -/
def resetCategoriesToDefault (_cats : Categories) : Categories :=
  updateMixedCategory DEFAULT_CATEGORIES

/-- The C6 invariant: the `mixta` word list equals the concatenation of the
word lists of all other categories. -/
def mixedInvariant (cats : Categories) : Prop :=
  (catGet cats "mixta").map (fun c => c.words) = some (getAllWords cats)

instance (cats : Categories) : Decidable (mixedInvariant cats) := by
  unfold mixedInvariant; infer_instance

/- ============================================================
   Reference-semantics model of the words arrays (for line 245 and
   addWordToCategory / isCategoryModified).

   `let CATEGORIES = { ...DEFAULT_CATEGORIES }` is a *shallow* copy: both
   objects bind every key to the same Category object, hence the same
   underlying words array.  `CATEGORIES[key].words.push(word)` mutates that
   shared array.  To express this the words arrays live in an explicit heap
   (`arrays`, keyed by reference id) and both `DEFAULT_CATEGORIES` and
   `CATEGORIES` bind keys to records holding a reference id.  The purely
   functional model above is observationally exact for everything that looks
   only at `CATEGORIES`; this model is needed where the code compares
   `CATEGORIES` *against* `DEFAULT_CATEGORIES` after mutations.
   ============================================================ -/

structure CatObjRef where
  emoji : String
  name : String
  wordsRef : Nat
  isCustom : Bool
deriving DecidableEq

structure CatHeap where
  arrays : List (Nat × List String)
  nextRef : Nat
  defaultCats : List (String × CatObjRef)
  cats : List (String × CatObjRef)
deriving DecidableEq

/-- Dereference a words array. -/
def arrGet (arrays : List (Nat × List String)) (r : Nat) : List String :=
  ((arrays.find? (fun e => e.1 == r)).map (fun e => e.2)).getD []

def refGet (m : List (String × CatObjRef)) (key : String) : Option CatObjRef :=
  (m.find? (fun e => e.1 == key)).map (fun e => e.2)

def refSet : List (String × CatObjRef) → String → CatObjRef → List (String × CatObjRef)
  | [], key, c => [(key, c)]
  | e :: t, key, c => if e.1 == key then (key, c) :: t else e :: refSet t key c

/-- `getAllWords` over the heap. -/
def getAllWordsHeap (h : CatHeap) : List String :=
  (h.cats.filter (fun e => !(e.1 == "mixta"))).flatMap (fun e => arrGet h.arrays e.2.wordsRef)

/-- `updateMixedCategory` over the heap: `flatMap`/spread build a *fresh*
array and a fresh `mixta` object, so `mixta` gets a new reference id. -/
def updateMixedCategoryHeap (h : CatHeap) : CatHeap :=
  let ws := getAllWordsHeap h
  let base := (refGet h.cats "mixta").getD
    { emoji := "", name := "", wordsRef := h.nextRef, isCustom := false }
  { h with
    arrays := h.arrays ++ [(h.nextRef, ws)],
    nextRef := h.nextRef + 1,
    cats := refSet h.cats "mixta" { base with wordsRef := h.nextRef } }

/-- `addWordToCategory` over the heap: `CATEGORIES[key].words.push(word)`
mutates the words array in place — every binding holding the same reference
(in particular `DEFAULT_CATEGORIES[key]` after the shallow copy) sees the
new word. -/
def addWordToCategoryHeap (key word : String) (h : CatHeap) : CatHeap :=
  if key = "mixta" then h
  else
    match refGet h.cats key with
    | some c =>
      if (arrGet h.arrays c.wordsRef).contains word then h
      else updateMixedCategoryHeap
        { h with arrays := h.arrays.map (fun e =>
            if e.1 == c.wordsRef then (e.1, e.2 ++ [word]) else e) }
    | none => h

/-- `isCategoryModified` (lines 739-749): compares the current entry with
`DEFAULT_CATEGORIES[key]` — `JSON.stringify` on the words arrays is value
equality.  (If a default key were missing from `CATEGORIES` the JS would
throw on `current.words`; that state is unreachable, the model returns
`true` there.) -/
def isCategoryModifiedHeap (key : String) (h : CatHeap) : Bool :=
  if key = "mixta" then false
  else
    match refGet h.defaultCats key with
    | none => true
    | some defaultCat =>
      match refGet h.cats key with
      | some current =>
        !(arrGet h.arrays current.wordsRef == arrGet h.arrays defaultCat.wordsRef)
          || !(current.name == defaultCat.name)
          || !(current.emoji == defaultCat.emoji)
      | none => true

/-- The words arrays shipped in `DEFAULT_CATEGORIES`, one heap cell per
category in declaration order. -/
def initArrays : List (Nat × List String) :=
  DEFAULT_CATEGORIES.enum.map (fun e => (e.1, e.2.2.words))

/-- Key bindings of `DEFAULT_CATEGORIES` as heap references. -/
def initRefs : List (String × CatObjRef) :=
  DEFAULT_CATEGORIES.enum.map (fun e =>
    (e.2.1, { emoji := e.2.2.emoji, name := e.2.2.name, wordsRef := e.1,
              isCustom := e.2.2.isCustom }))

/-- Module initialization (lines 245 and 270):
`let CATEGORIES = { ...DEFAULT_CATEGORIES }` — the shallow copy makes both
objects share every words array — followed by
`CATEGORIES = updateMixedCategory(CATEGORIES)`. -/
def initHeap : CatHeap :=
  updateMixedCategoryHeap
    { arrays := initArrays, nextRef := DEFAULT_CATEGORIES.length,
      defaultCats := initRefs, cats := initRefs }

/- ============================================================
   Game-config persistence (lines 426-525), modelled at the JSON level.
   ============================================================ -/

inductive Json where
  | null
  | bool (b : Bool)
  | num (n : Int)
  | str (s : String)
  | arr (elems : List Json)
  | obj (fields : List (String × Json))

/-- Property lookup on a parsed JSON object. -/
def jGet (fields : List (String × Json)) (key : String) : Option Json :=
  (fields.find? (fun e => e.1 == key)).map (fun e => e.2)

/-- `typeof x === 'string'`. -/
def Json.isStr : Json → Bool
  | .str _ => true
  | _ => false

/-- `isValidGameState` (lines 426-440).  Note the `typeof data === 'object'`
check also admits parsed JSON *arrays* (property reads on an array simply
yield `undefined`), and that only the three persistable fields are ever
inspected. -/
def isValidGameState (data : Json) : Bool :=
  match data with
  | .obj fields =>
    (match jGet fields "players" with
     | none => true
     | some (.arr ps) => ps.all Json.isStr
     | some _ => false)
    && (match jGet fields "selectedCategory" with
        | none => true
        | some v => v.isStr)
    && (match jGet fields "selectedVariant" with
        | none => true
        | some v => v.isStr)
  | .arr _ => true
  | _ => false

/-- The blob stored under `STORAGE_KEY`: either a string `JSON.parse`
rejects (or the empty string), or a parsed JSON value. -/
inductive StoredBlob where
  | malformed
  | wellFormed (j : Json)

/-- `loadGameState` (lines 492-525): read, `safeJsonParse` with
`isValidGameState`; on success return the parsed object (extra keys and
all), otherwise delete the offending entry (when one was present) and
return `{}`.  Storage reads/writes themselves are modelled as succeeding;
their timeout/failure fallbacks only ever produce the same `{}` result. -/
def loadGameState (stored : Option StoredBlob) : Json × Option StoredBlob :=
  match stored with
  | none => (Json.obj [], none)
  | some .malformed => (Json.obj [], none)
  | some (.wellFormed j) =>
    if isValidGameState j then (j, some (.wellFormed j))
    else (Json.obj [], none)

/-- `Partial<GameState>` (interface at lines 352-369), as the typed value a
caller passes to `saveGameState`; `currentScreen` is a string-literal union
in TS, here its string. -/
structure PartialGameState where
  players : Option (List String) := none
  selectedCategory : Option String := none
  selectedVariant : Option String := none
  shuffledPlayers : Option (List String) := none
  currentPlayerIndex : Option Int := none
  impostorIndices : Option (List Int) := none
  jesterIndex : Option Int := none
  playerRoles : Option (List PlayerRoleInfo) := none
  secretWord : Option String := none
  starterPlayer : Option String := none
  currentScreen : Option String := none

/-- `saveGameState` (lines 462-487): extract the three `PERSISTABLE_KEYS`
fields, re-read the persisted config, merge with `??` key by key (skipping
absent values), stringify and store.  The merged object is built in
`PERSISTABLE_KEYS` order. -/
def saveGameState (state : PartialGameState) (stored : Option StoredBlob) :
    Bool × Option StoredBlob :=
  let existing := (loadGameState stored).1
  let exGet := fun key =>
    match existing with
    | .obj fields => jGet fields key
    | _ => none
  let mergedPlayers :=
    (state.players.map (fun ps => Json.arr (ps.map Json.str))).orElse (fun _ => exGet "players")
  let mergedCategory :=
    (state.selectedCategory.map Json.str).orElse (fun _ => exGet "selectedCategory")
  let mergedVariant :=
    (state.selectedVariant.map Json.str).orElse (fun _ => exGet "selectedVariant")
  let merged :=
    (match mergedPlayers with | some v => [("players", v)] | none => [])
    ++ (match mergedCategory with | some v => [("selectedCategory", v)] | none => [])
    ++ (match mergedVariant with | some v => [("selectedVariant", v)] | none => [])
  (true, some (.wellFormed (Json.obj merged)))

/-- `typeof x === 'number'`. -/
def Json.isNum : Json → Bool
  | .num _ => true
  | _ => false

/-- A JSON value of TS type `string[]`. -/
def Json.isStrArr : Json → Bool
  | .arr xs => xs.all Json.isStr
  | _ => false

/-- A JSON value of TS type `number[]`. -/
def Json.isNumArr : Json → Bool
  | .arr xs => xs.all Json.isNum
  | _ => false

/-- A JSON value of TS type `PlayerRoleInfo`. -/
def Json.isPlayerRoleInfo : Json → Bool
  | .obj fields =>
    (match jGet fields "role" with
     | some (.str r) => ["citizen", "impostor", "jester"].contains r
     | _ => false)
    && (match jGet fields "knowsWord" with
        | some (.bool _) => true
        | _ => false)
    && (match jGet fields "partnerName" with
        | none => true
        | some (.str _) => true
        | _ => false)
  | _ => false

/-- Helper: an optional field, if present, has the given type. -/
def optFieldIs (fields : List (String × Json)) (key : String) (p : Json → Bool) : Bool :=
  match jGet fields key with
  | none => true
  | some v => p v

/-- Conformance of a JSON value to the declared field types of
`Partial<GameState>` (interface at lines 352-369): every declared field, if
present, carries a value of its declared type. -/
def conformsToPartialGameState : Json → Bool
  | .obj fields =>
    optFieldIs fields "players" Json.isStrArr
    && optFieldIs fields "selectedCategory" Json.isStr
    && optFieldIs fields "selectedVariant"
        (fun v => match v with
          | .str s => ["classic", "double-impostor", "accomplices", "jester", "chaos"].contains s
          | _ => false)
    && optFieldIs fields "shuffledPlayers" Json.isStrArr
    && optFieldIs fields "currentPlayerIndex" Json.isNum
    && optFieldIs fields "impostorIndices" Json.isNumArr
    && optFieldIs fields "jesterIndex" Json.isNum
    && optFieldIs fields "playerRoles"
        (fun v => match v with
          | .arr xs => xs.all Json.isPlayerRoleInfo
          | _ => false)
    && optFieldIs fields "secretWord" Json.isStr
    && optFieldIs fields "starterPlayer" Json.isStr
    && optFieldIs fields "currentScreen"
        (fun v => match v with
          | .str s => ["setup", "pass", "reveal", "playing", "end"].contains s
          | _ => false)
  | _ => false

/- ============================================================
   Supporting lemmas: draws, swaps, Fisher-Yates
   ============================================================ -/

theorem tapeDraw_lt {max : Nat} (tape : List Nat) (h : 0 < max) :
    (tapeDraw max tape).1 < max := by
  cases tape with
  | nil => simpa [tapeDraw] using h
  | cons r rest => simpa [tapeDraw] using Nat.mod_lt r h

/-- Pulling the element at position `k` to the front while writing `a` into
that position is a permutation of pushing `a` to the front. -/
theorem cons_set_perm {α : Type u} :
    ∀ (t : List α) (k : Nat) (a y : α), t[k]? = some y → (y :: t.set k a).Perm (a :: t) := by
  intro t
  induction t with
  | nil => intro k a y h; simp at h
  | cons b t' ih =>
    intro k a y h
    cases k with
    | zero =>
      simp only [List.getElem?_cons_zero, Option.some.injEq] at h
      subst h
      simpa [List.set_cons_zero] using List.Perm.swap a b t'
    | succ m =>
      simp only [List.getElem?_cons_succ] at h
      have step := ih m a y h
      have p1 : List.Perm (y :: b :: t'.set m a) (b :: y :: t'.set m a) :=
        List.Perm.swap b y _
      have p2 : List.Perm (b :: y :: t'.set m a) (b :: a :: t') := step.cons b
      have p3 : List.Perm (b :: a :: t') (a :: b :: t') := List.Perm.swap a b t'
      simpa [List.set_cons_succ] using (p1.trans p2).trans p3

theorem set_set_perm_of_getElem? {α : Type u} :
    ∀ (l : List α) (i j : Nat) (x y : α),
      l[i]? = some x → l[j]? = some y → ((l.set i y).set j x).Perm l := by
  intro l
  induction l with
  | nil => intro i j x y hx; simp at hx
  | cons a t ih =>
    intro i j x y hx hy
    cases i with
    | zero =>
      simp only [List.getElem?_cons_zero, Option.some.injEq] at hx
      subst hx
      cases j with
      | zero =>
        simp only [List.getElem?_cons_zero, Option.some.injEq] at hy
        subst hy
        simp
      | succ m =>
        simp only [List.getElem?_cons_succ] at hy
        simpa [List.set_cons_zero] using cons_set_perm t m a y hy
    | succ k =>
      simp only [List.getElem?_cons_succ] at hx
      cases j with
      | zero =>
        simp only [List.getElem?_cons_zero, Option.some.injEq] at hy
        subst hy
        simpa [List.set_cons_zero] using cons_set_perm t k a x hx
      | succ m =>
        simp only [List.getElem?_cons_succ] at hy
        simpa using (ih k m x y hx hy).cons a

theorem swapAt_perm {α : Type u} (l : List α) (i j : Nat) : (swapAt l i j).Perm l := by
  unfold swapAt
  cases hx : l[i]? with
  | none => simp
  | some x =>
    cases hy : l[j]? with
    | none => simp
    | some y => exact set_set_perm_of_getElem? l i j x y hx hy

theorem shuffleLoop_perm {α : Type u} :
    ∀ (k : Nat) (l : List α) (tape : List Nat), ((shuffleLoop l k tape).1).Perm l := by
  intro k
  induction k with
  | zero => intro l tape; simp [shuffleLoop]
  | succ k ih =>
    intro l tape
    have h1 := ih (swapAt l (k + 1) (tapeDraw (k + 2) tape).1) (tapeDraw (k + 2) tape).2
    exact (h1.trans (swapAt_perm l (k + 1) _))

/-- **C3**: `shuffleArray(S)` returns a permutation of `S` (same length,
same multiset of elements); the model is pure, so the input list is never
mutated (the source copies with `[...array]` before swapping); empty and
single-element inputs are returned unchanged. -/
theorem shuffleArray_is_permutation {α : Type u} (S : List α) (tape : List Nat) :
    ((shuffleArray S tape).1).Perm S
    ∧ (shuffleArray S tape).1.length = S.length
    ∧ (S.length ≤ 1 → (shuffleArray S tape).1 = S) := by
  refine ⟨shuffleLoop_perm _ S tape, (shuffleLoop_perm _ S tape).length_eq, fun h => ?_⟩
  have h0 : S.length - 1 = 0 := by omega
  simp [shuffleArray, h0, shuffleLoop]

theorem shuffleArray_is_permutation_witness :
    ((shuffleArray ["Ana", "Bea", "Cid"] [2, 1]).1).Perm ["Ana", "Bea", "Cid"]
    ∧ (shuffleArray ["Ana", "Bea", "Cid"] [2, 1]).1.length = (["Ana", "Bea", "Cid"] : List String).length
    ∧ ((["Ana", "Bea", "Cid"] : List String).length ≤ 1 →
        (shuffleArray ["Ana", "Bea", "Cid"] [2, 1]).1 = ["Ana", "Bea", "Cid"]) :=
  shuffleArray_is_permutation ["Ana", "Bea", "Cid"] [2, 1]

/- ============================================================
   C5: secureRandom
   ============================================================ -/

theorem secureRandom_mem_range (e : EntropyOutcome) (q : ℚ) (max : Nat)
    (hmax : 0 < max) (hq0 : 0 ≤ q) (hq1 : q < 1) :
    0 ≤ secureRandom e q max ∧ secureRandom e q max < max := by
  have hfloor0 : (0 : ℤ) ≤ Int.floor (q * (max : ℚ)) := by
    apply Int.le_floor.mpr
    push_cast
    exact mul_nonneg hq0 (by positivity)
  have hfloor1 : Int.floor (q * (max : ℚ)) < (max : ℤ) := by
    apply Int.floor_lt.mpr
    push_cast
    calc q * (max : ℚ) < 1 * (max : ℚ) :=
          mul_lt_mul_of_pos_right hq1 (by exact_mod_cast hmax)
      _ = (max : ℚ) := one_mul _
  cases e with
  | ok b0 b1 b2 b3 =>
    refine ⟨Int.natCast_nonneg _, ?_⟩
    show ((getUint32LE b0 b1 b2 b3 % max : Nat) : ℤ) < (max : ℤ)
    exact_mod_cast Nat.mod_lt _ hmax
  | timedOut => exact ⟨hfloor0, hfloor1⟩
  | threw => exact ⟨hfloor0, hfloor1⟩

/-- **C5**: for every `max > 0`, `secureRandom(max)` returns an integer in
`[0, max)` on both paths (totality of the embedding reflects that neither
path throws): the primary path is the 4 random bytes as an unsigned 32-bit
little-endian value reduced modulo `max`, and the fallback path (timeout,
exception, or unavailable generator) is `Math.floor(Math.random() * max)`. -/
theorem secureRandom_range_and_paths (e : EntropyOutcome) (q : ℚ) (max : Nat)
    (hmax : 0 < max) (hq0 : 0 ≤ q) (hq1 : q < 1) :
    (0 ≤ secureRandom e q max ∧ secureRandom e q max < max)
    ∧ (∀ b0 b1 b2 b3 : Nat,
        secureRandom (EntropyOutcome.ok b0 b1 b2 b3) q max
          = ((getUint32LE b0 b1 b2 b3 % max : Nat) : ℤ))
    ∧ secureRandom EntropyOutcome.timedOut q max = Int.floor (q * (max : ℚ))
    ∧ secureRandom EntropyOutcome.threw q max = Int.floor (q * (max : ℚ)) :=
  ⟨secureRandom_mem_range e q max hmax hq0 hq1, fun _ _ _ _ => rfl, rfl, rfl⟩

theorem secureRandom_range_and_paths_witness :
    (0 < 10 ∧ (0 : ℚ) ≤ 0 ∧ (0 : ℚ) < 1)
    ∧ (0 ≤ secureRandom (EntropyOutcome.ok 5 0 0 0) 0 10
        ∧ secureRandom (EntropyOutcome.ok 5 0 0 0) 0 10 < 10) :=
  ⟨⟨by decide, le_refl 0, zero_lt_one⟩,
    (secureRandom_range_and_paths (EntropyOutcome.ok 5 0 0 0) 0 10
      (by decide) (le_refl 0) zero_lt_one).1⟩

/- ============================================================
   C4: selectUniqueIndices
   ============================================================ -/

theorem nodup_getElem_not_mem_eraseIdx {α : Type u} :
    ∀ (l : List α) (i : Nat) (h : i < l.length), l.Nodup → l[i] ∉ l.eraseIdx i := by
  intro l
  induction l with
  | nil => intro i h; simp at h
  | cons a t ih =>
    intro i h hnd
    rw [List.nodup_cons] at hnd
    cases i with
    | zero => simpa [List.eraseIdx] using hnd.1
    | succ k =>
      have hk : k < t.length := by simpa using h
      have hmem : t[k] ∈ t := List.getElem_mem hk
      have hne : t[k] ≠ a := fun he => hnd.1 (he ▸ hmem)
      simpa [List.eraseIdx, hne] using ih k hk hnd.2

theorem selectLoop_spec :
    ∀ (n : Nat) (avail tape : List Nat), avail.Nodup →
      ((selectLoop n avail tape).1.Nodup
        ∧ (∀ x ∈ (selectLoop n avail tape).1, x ∈ avail))
      ∧ (selectLoop n avail tape).1.length = min n avail.length := by
  intro n
  induction n with
  | zero => intro avail tape _; simp [selectLoop]
  | succ n ih =>
    intro avail tape hnd
    by_cases he : avail.isEmpty
    · have h0 : avail.length = 0 := by
        rw [List.isEmpty_iff] at he; simp [he]
      simp [selectLoop, he, h0]
    · have hlen : 0 < avail.length := by
        rcases avail with _ | ⟨a, t⟩
        · simp at he
        · simp
      have hpos : (tapeDraw avail.length tape).1 < avail.length := tapeDraw_lt tape hlen
      have herase : (avail.eraseIdx (tapeDraw avail.length tape).1).Nodup :=
        (List.eraseIdx_sublist avail _).nodup hnd
      have hrec := ih (avail.eraseIdx (tapeDraw avail.length tape).1)
        (tapeDraw avail.length tape).2 herase
      have hgd : avail.getD (tapeDraw avail.length tape).1 0 = avail[(tapeDraw avail.length tape).1] :=
        List.getD_eq_getElem avail 0 hpos
      have hnotmem : avail[(tapeDraw avail.length tape).1] ∉
          avail.eraseIdx (tapeDraw avail.length tape).1 :=
        nodup_getElem_not_mem_eraseIdx avail _ hpos hnd
      have hlenerase : (avail.eraseIdx (tapeDraw avail.length tape).1).length
          = avail.length - 1 := by
        rw [List.length_eraseIdx]; simp [hpos]
      simp only [selectLoop, he, if_false, Bool.false_eq_true]
      refine ⟨⟨?_, ?_⟩, ?_⟩
      · rw [List.nodup_cons]
        refine ⟨?_, hrec.1.1⟩
        rw [hgd]
        intro hmem
        exact hnotmem (hrec.1.2 _ hmem)
      · intro x hx
        rcases List.mem_cons.mp hx with h | h
        · rw [h, hgd]; exact List.getElem_mem hpos
        · exact (List.eraseIdx_sublist avail _).mem (hrec.1.2 x h)
      · rw [List.length_cons, hrec.2, hlenerase]
        omega

theorem mem_selectPool {max : Nat} {exclude : List Nat} {x : Nat} :
    x ∈ (List.range max).filter (fun i => !(exclude.contains i)) ↔
      x < max ∧ x ∉ exclude := by
  simp [List.mem_filter, List.mem_range, List.elem_iff]

/-- **C4**: `selectUniqueIndices(count, max, exclude)` returns pairwise
distinct indices, all in `[0, max)` and none in `exclude`; it returns
`min count poolSize` of them, where the pool is `[0, max)` minus `exclude` —
so exactly `count` when the pool suffices, and the whole pool (rather than
an error) when `count` exceeds it. -/
theorem selectUniqueIndices_spec (count max : Nat) (exclude : List Nat) (tape : List Nat)
    (hmax : 0 < max) :
    (selectUniqueIndices count max exclude tape).1.Nodup
    ∧ (∀ x ∈ (selectUniqueIndices count max exclude tape).1, x < max ∧ x ∉ exclude)
    ∧ (selectUniqueIndices count max exclude tape).1.length
        = min count ((List.range max).filter (fun i => !(exclude.contains i))).length
    ∧ (count ≤ ((List.range max).filter (fun i => !(exclude.contains i))).length →
        (selectUniqueIndices count max exclude tape).1.length = count)
    ∧ (((List.range max).filter (fun i => !(exclude.contains i))).length ≤ count →
        (selectUniqueIndices count max exclude tape).1.length
          = ((List.range max).filter (fun i => !(exclude.contains i))).length) := by
  have hpoolnd : ((List.range max).filter (fun i => !(exclude.contains i))).Nodup :=
    (List.nodup_range max).filter _
  have h := selectLoop_spec count ((List.range max).filter (fun i => !(exclude.contains i)))
    tape hpoolnd
  refine ⟨h.1.1, ?_, h.2, ?_, ?_⟩
  · intro x hx
    exact mem_selectPool.mp (h.1.2 x hx)
  · intro hc; unfold selectUniqueIndices; rw [h.2]; omega
  · intro hc; unfold selectUniqueIndices; rw [h.2]; omega

theorem selectUniqueIndices_spec_witness :
    0 < 5
    ∧ ((selectUniqueIndices 2 5 [1] [3, 3]).1.Nodup
      ∧ (∀ x ∈ (selectUniqueIndices 2 5 [1] [3, 3]).1, x < 5 ∧ x ∉ [1])
      ∧ (selectUniqueIndices 2 5 [1] [3, 3]).1.length
          = min 2 ((List.range 5).filter (fun i => !(List.contains [1] i))).length
      ∧ (2 ≤ ((List.range 5).filter (fun i => !(List.contains [1] i))).length →
          (selectUniqueIndices 2 5 [1] [3, 3]).1.length = 2)
      ∧ (((List.range 5).filter (fun i => !(List.contains [1] i))).length ≤ 2 →
          (selectUniqueIndices 2 5 [1] [3, 3]).1.length
            = ((List.range 5).filter (fun i => !(List.contains [1] i))).length)) :=
  ⟨by decide, selectUniqueIndices_spec 2 5 [1] [3, 3] (by decide)⟩

/- ============================================================
   C1 / C2: startNewGame role invariants
   ============================================================ -/

/-- A JS `array.map((_, index) => body(index))` whose body ignores the
element is a map over the index range. -/
theorem mapIdx_index_only {α : Type u} {β : Type v} :
    ∀ (l : List α) (g : Nat → β),
      (l.mapIdx fun i _ => g i) = (List.range l.length).map g := by
  intro l
  induction l with
  | nil => intro g; simp
  | cons a t ih =>
    intro g
    rw [List.mapIdx_cons, List.length_cons, List.range_succ_eq_map, List.map_cons,
      List.map_map]
    exact congrArg (List.cons (g 0)) (ih (fun i => g (i + 1)))

/-- Counting the members of a duplicate-free list `s ⊆ [0, n)` inside
`range n`. -/
theorem countP_range_contains (s : List Nat) (n : Nat) (hs : s.Nodup)
    (hlt : ∀ x ∈ s, x < n) :
    (List.range n).countP (fun i => s.contains i) = s.length := by
  rw [List.countP_eq_length_filter]
  have hnd : ((List.range n).filter (fun i => s.contains i)).Nodup :=
    (List.nodup_range n).filter _
  have hperm : ((List.range n).filter (fun i => s.contains i)).Perm s := by
    rw [List.perm_ext_iff_of_nodup hnd hs]
    intro a
    simp only [List.mem_filter, List.mem_range, List.elem_iff]
    constructor
    · exact fun h => h.2
    · exact fun h => ⟨hlt a h, h⟩
  exact hperm.length_eq

/-- Size of the selection pool `[0, n)` minus a duplicate-free excluded set
below `n`. -/
theorem length_range_filter_not_contains (s : List Nat) (n : Nat) (hs : s.Nodup)
    (hlt : ∀ x ∈ s, x < n) :
    ((List.range n).filter (fun i => !(s.contains i))).length = n - s.length := by
  have htotal := List.length_eq_length_filter_add (l := List.range n) (fun i => s.contains i)
  have hmem : ((List.range n).filter (fun i => s.contains i)).length = s.length := by
    rw [← List.countP_eq_length_filter]
    exact countP_range_contains s n hs hlt
  simp only [List.length_range] at htotal
  omega

theorem buildPlayerRole_impostor_beq (cfg : GameVariantConfig) (sp : List String)
    (imps : List Nat) (jIdx : Int) (i : Nat) :
    ((buildPlayerRole cfg sp imps jIdx i).role == PlayerRole.impostor) = imps.contains i := by
  by_cases h1 : i ∈ imps
  · simp [buildPlayerRole, h1]
  · by_cases h2 : ((i : Int) = jIdx)
    · simp [buildPlayerRole, h1, h2]
    · simp [buildPlayerRole, h1, h2]

theorem buildPlayerRole_jester_beq (cfg : GameVariantConfig) (sp : List String)
    (imps : List Nat) (jIdx : Int) (i : Nat) :
    ((buildPlayerRole cfg sp imps jIdx i).role == PlayerRole.jester)
      = (!(imps.contains i) && ((i : Int) == jIdx)) := by
  by_cases h1 : i ∈ imps
  · simp [buildPlayerRole, h1]
  · by_cases h2 : ((i : Int) = jIdx)
    · simp [buildPlayerRole, h1, h2]
    · simp [buildPlayerRole, h1, h2]

theorem buildPlayerRole_knowsWord_iff (cfg : GameVariantConfig) (sp : List String)
    (imps : List Nat) (jIdx : Int) (i : Nat) :
    ((buildPlayerRole cfg sp imps jIdx i).knowsWord = false
      ↔ (buildPlayerRole cfg sp imps jIdx i).role = PlayerRole.impostor) := by
  by_cases h1 : i ∈ imps
  · simp [buildPlayerRole, h1]
  · by_cases h2 : ((i : Int) = jIdx)
    · simp [buildPlayerRole, h1, h2]
    · simp [buildPlayerRole, h1, h2]

theorem buildPlayerRole_partnerName_none (cfg : GameVariantConfig) (sp : List String)
    (imps : List Nat) (jIdx : Int) (i : Nat)
    (h : (buildPlayerRole cfg sp imps jIdx i).role ≠ PlayerRole.impostor) :
    (buildPlayerRole cfg sp imps jIdx i).partnerName = none := by
  by_cases h1 : i ∈ imps
  · exact absurd (by simp [buildPlayerRole, h1]) h
  · by_cases h2 : ((i : Int) = jIdx)
    · simp [buildPlayerRole, h1, h2]
    · simp [buildPlayerRole, h1, h2]

theorem countP_roles_partition :
    ∀ (rs : List PlayerRoleInfo),
      rs.countP (fun ri => ri.role == PlayerRole.citizen)
        + rs.countP (fun ri => ri.role == PlayerRole.impostor)
        + rs.countP (fun ri => ri.role == PlayerRole.jester) = rs.length := by
  intro rs
  induction rs with
  | nil => simp
  | cons r t ih =>
    cases hrole : r.role <;> simp [List.countP_cons, hrole] <;> omega

theorem startNewGame_shuffledPlayers_eq (p : List String) (c : String) (v : GameVariant)
    (cats : Categories) (tape : List Nat) :
    (startNewGame p c v cats tape).shuffledPlayers = (shuffleArray p tape).1 := rfl

theorem startNewGame_impostorIndices_eq (p : List String) (c : String) (v : GameVariant)
    (cats : Categories) (tape : List Nat) :
    (startNewGame p c v cats tape).impostorIndices
      = (selectUniqueIndices (GAME_VARIANTS v).impostorCount (shuffleArray p tape).1.length []
          (shuffleArray p tape).2).1 := rfl

theorem startNewGame_jesterIndex_eq (p : List String) (c : String) (v : GameVariant)
    (cats : Categories) (tape : List Nat) :
    (startNewGame p c v cats tape).jesterIndex
      = (if (GAME_VARIANTS v).hasJester then
          ((selectUniqueIndices 1 (shuffleArray p tape).1.length
              (startNewGame p c v cats tape).impostorIndices
              (selectUniqueIndices (GAME_VARIANTS v).impostorCount
                (shuffleArray p tape).1.length [] (shuffleArray p tape).2).2).1.head?.map
            Int.ofNat).getD (-1)
        else -1) := rfl

theorem startNewGame_playerRoles_eq (p : List String) (c : String) (v : GameVariant)
    (cats : Categories) (tape : List Nat) :
    (startNewGame p c v cats tape).playerRoles
      = (List.range (shuffleArray p tape).1.length).map
          (buildPlayerRole (GAME_VARIANTS v) (shuffleArray p tape).1
            (startNewGame p c v cats tape).impostorIndices
            (startNewGame p c v cats tape).jesterIndex) :=
  mapIdx_index_only _ _

theorem contains_eq_false_of_not_mem {l : List Nat} {x : Nat} (h : x ∉ l) :
    l.contains x = false := by
  rw [← Bool.not_eq_true, List.elem_iff]; exact h

/-- Counting a single in-range index inside `range n`. -/
theorem countP_range_beq_single {j n : Nat} (hj : j < n) :
    (List.range n).countP (fun i => i == j) = 1 := by
  have h := countP_range_contains [j] n (by simp) (by simpa using hj)
  have hc : (List.range n).countP (fun i => i == j)
      = (List.range n).countP (fun i => [j].contains i) :=
    List.countP_congr (fun x _ => by simp [List.elem_iff])
  rw [hc, h]
  simp

/-- **C1**: for every player list of at least `minPlayers` players and every
built-in variant (each satisfies `impostorCount + (hasJester ? 1 : 0) <
minPlayers`), the `playerRoles` of `startNewGame` contain exactly
`impostorCount` impostor records, exactly one jester record when
`hasJester` (none otherwise — so at most one, and only if `hasJester`), all
remaining records are citizens, and `knowsWord` is false on a record iff
its role is impostor. -/
theorem startNewGame_role_invariant (players : List String) (category : String)
    (variant : GameVariant) (cats : Categories) (tape : List Nat)
    (hlen : (GAME_VARIANTS variant).minPlayers ≤ players.length) :
    (startNewGame players category variant cats tape).playerRoles.countP
        (fun ri => ri.role == PlayerRole.impostor) = (GAME_VARIANTS variant).impostorCount
    ∧ (startNewGame players category variant cats tape).playerRoles.countP
        (fun ri => ri.role == PlayerRole.jester)
        = (if (GAME_VARIANTS variant).hasJester then 1 else 0)
    ∧ (startNewGame players category variant cats tape).playerRoles.countP
        (fun ri => ri.role == PlayerRole.citizen)
        = players.length - (GAME_VARIANTS variant).impostorCount
            - (if (GAME_VARIANTS variant).hasJester then 1 else 0)
    ∧ ∀ ri ∈ (startNewGame players category variant cats tape).playerRoles,
        (ri.knowsWord = false ↔ ri.role = PlayerRole.impostor) := by
  have hvar : (GAME_VARIANTS variant).impostorCount
      + (if (GAME_VARIANTS variant).hasJester then 1 else 0)
      < (GAME_VARIANTS variant).minPlayers := by
    cases variant <;> decide
  have hmin3 : 3 ≤ (GAME_VARIANTS variant).minPlayers := by
    cases variant <;> decide
  have hsplen : (shuffleArray players tape).1.length = players.length :=
    (shuffleLoop_perm _ players tape).length_eq
  have hImpsEq := startNewGame_impostorIndices_eq players category variant cats tape
  have hJEq := startNewGame_jesterIndex_eq players category variant cats tape
  rw [startNewGame_playerRoles_eq]
  set N := (shuffleArray players tape).1.length with hN
  set IMPS := (startNewGame players category variant cats tape).impostorIndices with hIMPS
  set JIDX := (startNewGame players category variant cats tape).jesterIndex with hJIDX
  have hn0 : 0 < N := by omega
  have hselI := selectUniqueIndices_spec (GAME_VARIANTS variant).impostorCount N []
    (shuffleArray players tape).2 hn0
  rw [← hImpsEq] at hselI
  have hnd : IMPS.Nodup := hselI.1
  have hmemI : ∀ x ∈ IMPS, x < N := fun x hx => (hselI.2.1 x hx).1
  have hpool : ((List.range N).filter (fun i => !(List.contains ([] : List Nat) i))).length
      = N := by
    have heq : (fun i : Nat => !(List.contains ([] : List Nat) i)) = fun _ => true := by
      funext i; rfl
    rw [heq, List.filter_true, List.length_range]
  have hImpsLen : IMPS.length = (GAME_VARIANTS variant).impostorCount := by
    rw [hselI.2.2.1, hpool]; omega
  have hcountImp : (List.range N).countP
      ((fun ri => ri.role == PlayerRole.impostor) ∘
        buildPlayerRole (GAME_VARIANTS variant) (shuffleArray players tape).1 IMPS JIDX)
      = (GAME_VARIANTS variant).impostorCount := by
    rw [List.countP_congr (q := fun i => IMPS.contains i) (fun x _ => by
      simp only [Function.comp_apply, buildPlayerRole_impostor_beq])]
    rw [countP_range_contains IMPS N hnd hmemI, hImpsLen]
  have hcountJest : (List.range N).countP
      ((fun ri => ri.role == PlayerRole.jester) ∘
        buildPlayerRole (GAME_VARIANTS variant) (shuffleArray players tape).1 IMPS JIDX)
      = (if (GAME_VARIANTS variant).hasJester then 1 else 0) := by
    by_cases hj : (GAME_VARIANTS variant).hasJester
    · have hJ2 : JIDX = (((selectUniqueIndices 1 N IMPS
          (selectUniqueIndices (GAME_VARIANTS variant).impostorCount N []
            (shuffleArray players tape).2).2).1.head?).map Int.ofNat).getD (-1) := by
        rw [hJEq, if_pos hj]
      have hselJ := selectUniqueIndices_spec 1 N IMPS
        (selectUniqueIndices (GAME_VARIANTS variant).impostorCount N []
          (shuffleArray players tape).2).2 hn0
      have hpool2 : ((List.range N).filter (fun i => !(IMPS.contains i))).length
          = N - IMPS.length :=
        length_range_filter_not_contains IMPS N hnd hmemI
      have hlenJ : (selectUniqueIndices 1 N IMPS
          (selectUniqueIndices (GAME_VARIANTS variant).impostorCount N []
            (shuffleArray players tape).2).2).1.length = 1 := by
        rw [hselJ.2.2.1, hpool2, hImpsLen]
        rw [if_pos hj] at hvar
        omega
      obtain ⟨j, hjs⟩ := List.length_eq_one.mp hlenJ
      have hjprops := hselJ.2.1 j (by simp [hjs])
      have hJval : JIDX = Int.ofNat j := by rw [hJ2, hjs]; rfl
      rw [if_pos hj]
      rw [List.countP_congr (q := fun i => i == j) (fun x _ => by
        simp only [Function.comp_apply, buildPlayerRole_jester_beq]
        by_cases hxj : x = j
        · subst hxj
          simp [hJval, hjprops.2]
        · simp [hJval, hxj])]
      exact countP_range_beq_single hjprops.1
    · have hJval : JIDX = -1 := by rw [hJEq, if_neg hj]
      rw [if_neg hj]
      rw [List.countP_congr (q := fun _ => false) (fun x _ => by
        simp only [Function.comp_apply, buildPlayerRole_jester_beq]
        simp [hJval])]
      simp
  refine ⟨?_, ?_, ?_, ?_⟩
  · rw [List.countP_map]; exact hcountImp
  · rw [List.countP_map]; exact hcountJest
  · have htri := countP_roles_partition ((List.range N).map
      (buildPlayerRole (GAME_VARIANTS variant) (shuffleArray players tape).1 IMPS JIDX))
    rw [List.countP_map, List.countP_map, List.countP_map, List.length_map,
      List.length_range] at htri
    rw [List.countP_map]
    rw [hcountImp, hcountJest] at htri
    omega
  · intro ri hri
    obtain ⟨i, -, rfl⟩ := List.mem_map.mp hri
    exact buildPlayerRole_knowsWord_iff _ _ _ _ _

theorem startNewGame_role_invariant_witness :
    ((GAME_VARIANTS GameVariant.chaos).minPlayers ≤
        (["Ana", "Bea", "Cid", "Dan", "Eva", "Fio"] : List String).length)
    ∧ ((startNewGame ["Ana", "Bea", "Cid", "Dan", "Eva", "Fio"] "animales"
          GameVariant.chaos DEFAULT_CATEGORIES [3, 1, 4, 1, 5, 2]).playerRoles.countP
        (fun ri => ri.role == PlayerRole.impostor)
          = (GAME_VARIANTS GameVariant.chaos).impostorCount
      ∧ (startNewGame ["Ana", "Bea", "Cid", "Dan", "Eva", "Fio"] "animales"
          GameVariant.chaos DEFAULT_CATEGORIES [3, 1, 4, 1, 5, 2]).playerRoles.countP
        (fun ri => ri.role == PlayerRole.jester)
          = (if (GAME_VARIANTS GameVariant.chaos).hasJester then 1 else 0)
      ∧ (startNewGame ["Ana", "Bea", "Cid", "Dan", "Eva", "Fio"] "animales"
          GameVariant.chaos DEFAULT_CATEGORIES [3, 1, 4, 1, 5, 2]).playerRoles.countP
        (fun ri => ri.role == PlayerRole.citizen)
          = (["Ana", "Bea", "Cid", "Dan", "Eva", "Fio"] : List String).length
              - (GAME_VARIANTS GameVariant.chaos).impostorCount
              - (if (GAME_VARIANTS GameVariant.chaos).hasJester then 1 else 0)
      ∧ ∀ ri ∈ (startNewGame ["Ana", "Bea", "Cid", "Dan", "Eva", "Fio"] "animales"
          GameVariant.chaos DEFAULT_CATEGORIES [3, 1, 4, 1, 5, 2]).playerRoles,
          (ri.knowsWord = false ↔ ri.role = PlayerRole.impostor)) :=
  ⟨by decide,
    startNewGame_role_invariant ["Ana", "Bea", "Cid", "Dan", "Eva", "Fio"] "animales"
      GameVariant.chaos DEFAULT_CATEGORIES [3, 1, 4, 1, 5, 2] (by decide)⟩

theorem getD_map_range {β : Type u} (g : Nat → β) (N a : Nat) (d : β) (h : a < N) :
    ((List.range N).map g).getD a d = g a := by
  have hlen : a < ((List.range N).map g).length := by simpa using h
  rw [List.getD_eq_getElem _ _ hlen]
  simp

theorem buildPlayerRole_pair_fst (cfg : GameVariantConfig) (sp : List String)
    (a b : Nat) (jIdx : Int) (hab : a ≠ b)
    (hknow : cfg.impostorsKnowEachOther = true) (himp : 1 < cfg.impostorCount) :
    buildPlayerRole cfg sp [a, b] jIdx a
      = { role := .impostor, knowsWord := false, partnerName := some (sp.getD b "") } := by
  have h2 : ((b : Nat) == a) = false := by
    simp [Ne.symm hab]
  simp [buildPlayerRole, hknow, himp, List.find?, h2]

theorem buildPlayerRole_pair_snd (cfg : GameVariantConfig) (sp : List String)
    (a b : Nat) (jIdx : Int) (hab : a ≠ b)
    (hknow : cfg.impostorsKnowEachOther = true) (himp : 1 < cfg.impostorCount) :
    buildPlayerRole cfg sp [a, b] jIdx b
      = { role := .impostor, knowsWord := false, partnerName := some (sp.getD a "") } := by
  have h2 : ((a : Nat) == b) = false := by
    simp [hab]
  simp [buildPlayerRole, hknow, himp, List.find?, h2]

/-- **C2**: for every variant with `impostorCount = 2` and
`impostorsKnowEachOther = true` and every player list of at least
`minPlayers` players, the two impostor records carry each other's shuffled
name as `partnerName` — the relation is symmetric — and no non-impostor
(citizen or jester) record carries a `partnerName`. -/
theorem startNewGame_accomplice_partners (players : List String) (category : String)
    (variant : GameVariant) (cats : Categories) (tape : List Nat)
    (hlen : (GAME_VARIANTS variant).minPlayers ≤ players.length)
    (himp : (GAME_VARIANTS variant).impostorCount = 2)
    (hknow : (GAME_VARIANTS variant).impostorsKnowEachOther = true) :
    (∃ a b : Nat, a ≠ b
      ∧ a < (startNewGame players category variant cats tape).shuffledPlayers.length
      ∧ b < (startNewGame players category variant cats tape).shuffledPlayers.length
      ∧ (startNewGame players category variant cats tape).impostorIndices = [a, b]
      ∧ ((startNewGame players category variant cats tape).playerRoles.getD a
            { role := PlayerRole.citizen, knowsWord := true }).role = PlayerRole.impostor
      ∧ ((startNewGame players category variant cats tape).playerRoles.getD a
            { role := PlayerRole.citizen, knowsWord := true }).partnerName
          = some ((startNewGame players category variant cats tape).shuffledPlayers.getD b "")
      ∧ ((startNewGame players category variant cats tape).playerRoles.getD b
            { role := PlayerRole.citizen, knowsWord := true }).role = PlayerRole.impostor
      ∧ ((startNewGame players category variant cats tape).playerRoles.getD b
            { role := PlayerRole.citizen, knowsWord := true }).partnerName
          = some ((startNewGame players category variant cats tape).shuffledPlayers.getD a ""))
    ∧ ∀ ri ∈ (startNewGame players category variant cats tape).playerRoles,
        ri.role ≠ PlayerRole.impostor → ri.partnerName = none := by
  have hmin3 : 3 ≤ (GAME_VARIANTS variant).minPlayers := by
    cases variant <;> decide
  have himpLTmin : (GAME_VARIANTS variant).impostorCount
      < (GAME_VARIANTS variant).minPlayers := by
    cases variant <;> decide
  have hsplen : (shuffleArray players tape).1.length = players.length :=
    (shuffleLoop_perm _ players tape).length_eq
  have hImpsEq := startNewGame_impostorIndices_eq players category variant cats tape
  rw [startNewGame_shuffledPlayers_eq, startNewGame_playerRoles_eq]
  set N := (shuffleArray players tape).1.length with hN
  set IMPS := (startNewGame players category variant cats tape).impostorIndices with hIMPS
  set JIDX := (startNewGame players category variant cats tape).jesterIndex with hJIDX
  have hn0 : 0 < N := by omega
  have hselI := selectUniqueIndices_spec (GAME_VARIANTS variant).impostorCount N []
    (shuffleArray players tape).2 hn0
  rw [← hImpsEq] at hselI
  have hnd : IMPS.Nodup := hselI.1
  have hmemI : ∀ x ∈ IMPS, x < N := fun x hx => (hselI.2.1 x hx).1
  have hpool : ((List.range N).filter (fun i => !(List.contains ([] : List Nat) i))).length
      = N := by
    have heq : (fun i : Nat => !(List.contains ([] : List Nat) i)) = fun _ => true := by
      funext i; rfl
    rw [heq, List.filter_true, List.length_range]
  have hImpsLen : IMPS.length = 2 := by
    rw [hselI.2.2.1, hpool, himp]; omega
  obtain ⟨a, b, hab⟩ := List.length_eq_two.mp hImpsLen
  have haneb : a ≠ b := by
    have h' := hnd
    rw [hab, List.nodup_cons] at h'
    simpa using h'.1
  have haN : a < N := hmemI a (by simp [hab])
  have hbN : b < N := hmemI b (by simp [hab])
  have himp1 : 1 < (GAME_VARIANTS variant).impostorCount := by omega
  constructor
  · refine ⟨a, b, haneb, haN, hbN, hab, ?_, ?_, ?_, ?_⟩
    · rw [getD_map_range _ N a _ haN, hab,
        buildPlayerRole_pair_fst _ _ a b JIDX haneb hknow himp1]
    · rw [getD_map_range _ N a _ haN, hab,
        buildPlayerRole_pair_fst _ _ a b JIDX haneb hknow himp1]
    · rw [getD_map_range _ N b _ hbN, hab,
        buildPlayerRole_pair_snd _ _ a b JIDX haneb hknow himp1]
    · rw [getD_map_range _ N b _ hbN, hab,
        buildPlayerRole_pair_snd _ _ a b JIDX haneb hknow himp1]
  · intro ri hri hrole
    obtain ⟨i, -, rfl⟩ := List.mem_map.mp hri
    exact buildPlayerRole_partnerName_none _ _ _ _ _ hrole

theorem startNewGame_accomplice_partners_witness :
    ((GAME_VARIANTS GameVariant.accomplices).minPlayers ≤
        (["Ana", "Bea", "Cid", "Dan", "Eva"] : List String).length
      ∧ (GAME_VARIANTS GameVariant.accomplices).impostorCount = 2
      ∧ (GAME_VARIANTS GameVariant.accomplices).impostorsKnowEachOther = true)
    ∧ ((∃ a b : Nat, a ≠ b
        ∧ a < (startNewGame ["Ana", "Bea", "Cid", "Dan", "Eva"] "comida"
            GameVariant.accomplices DEFAULT_CATEGORIES [1, 2, 0, 3]).shuffledPlayers.length
        ∧ b < (startNewGame ["Ana", "Bea", "Cid", "Dan", "Eva"] "comida"
            GameVariant.accomplices DEFAULT_CATEGORIES [1, 2, 0, 3]).shuffledPlayers.length
        ∧ (startNewGame ["Ana", "Bea", "Cid", "Dan", "Eva"] "comida"
            GameVariant.accomplices DEFAULT_CATEGORIES [1, 2, 0, 3]).impostorIndices = [a, b]
        ∧ ((startNewGame ["Ana", "Bea", "Cid", "Dan", "Eva"] "comida"
              GameVariant.accomplices DEFAULT_CATEGORIES [1, 2, 0, 3]).playerRoles.getD a
              { role := PlayerRole.citizen, knowsWord := true }).role = PlayerRole.impostor
        ∧ ((startNewGame ["Ana", "Bea", "Cid", "Dan", "Eva"] "comida"
              GameVariant.accomplices DEFAULT_CATEGORIES [1, 2, 0, 3]).playerRoles.getD a
              { role := PlayerRole.citizen, knowsWord := true }).partnerName
            = some ((startNewGame ["Ana", "Bea", "Cid", "Dan", "Eva"] "comida"
              GameVariant.accomplices DEFAULT_CATEGORIES [1, 2, 0, 3]).shuffledPlayers.getD b "")
        ∧ ((startNewGame ["Ana", "Bea", "Cid", "Dan", "Eva"] "comida"
              GameVariant.accomplices DEFAULT_CATEGORIES [1, 2, 0, 3]).playerRoles.getD b
              { role := PlayerRole.citizen, knowsWord := true }).role = PlayerRole.impostor
        ∧ ((startNewGame ["Ana", "Bea", "Cid", "Dan", "Eva"] "comida"
              GameVariant.accomplices DEFAULT_CATEGORIES [1, 2, 0, 3]).playerRoles.getD b
              { role := PlayerRole.citizen, knowsWord := true }).partnerName
            = some ((startNewGame ["Ana", "Bea", "Cid", "Dan", "Eva"] "comida"
              GameVariant.accomplices DEFAULT_CATEGORIES [1, 2, 0, 3]).shuffledPlayers.getD a ""))
      ∧ ∀ ri ∈ (startNewGame ["Ana", "Bea", "Cid", "Dan", "Eva"] "comida"
            GameVariant.accomplices DEFAULT_CATEGORIES [1, 2, 0, 3]).playerRoles,
          ri.role ≠ PlayerRole.impostor → ri.partnerName = none) :=
  ⟨⟨by decide, by decide, by decide⟩,
    startNewGame_accomplice_partners ["Ana", "Bea", "Cid", "Dan", "Eva"] "comida"
      GameVariant.accomplices DEFAULT_CATEGORIES [1, 2, 0, 3]
      (by decide) (by decide) (by decide)⟩

/- ============================================================
   C6 / C7: category store invariants
   ============================================================ -/

theorem catGet_catSet_self (cats : Categories) (k : String) (c : Category) :
    catGet (catSet cats k c) k = some c := by
  induction cats with
  | nil => simp [catGet, catSet, List.find?]
  | cons e t ih =>
    by_cases h : e.1 == k
    · simp [catSet, h, catGet, List.find?]
    · simp only [catSet, h, Bool.false_eq_true, if_false]
      simpa [catGet, List.find?, h] using ih

theorem catGet_catSet_ne (cats : Categories) (k k' : String) (c : Category)
    (hne : k' ≠ k) :
    catGet (catSet cats k c) k' = catGet cats k' := by
  have hbeq : (k == k') = false := by
    simp [Ne.symm hne]
  induction cats with
  | nil => simp [catGet, catSet, List.find?, hbeq]
  | cons e t ih =>
    by_cases h : e.1 == k
    · have he : (e.1 == k') = false := by
        have : e.1 = k := by simpa using h
        simp [this, Ne.symm hne]
      simp [catSet, h, catGet, List.find?, hbeq, he]
    · simp only [catSet, h, Bool.false_eq_true, if_false]
      by_cases h' : e.1 == k'
      · simp [catGet, List.find?, h']
      · simpa [catGet, List.find?, h'] using ih

theorem getAllWords_catSet_mixta (cats : Categories) (c : Category) :
    getAllWords (catSet cats "mixta" c) = getAllWords cats := by
  induction cats with
  | nil => simp [getAllWords, catSet]
  | cons e t ih =>
    by_cases h : e.1 == "mixta"
    · simp [catSet, h, getAllWords]
    · simp only [catSet, h, Bool.false_eq_true, if_false]
      simpa [getAllWords, h] using ih

theorem getAllWords_catSet_same_words :
    ∀ (cats : Categories) (k : String) (c c0 : Category),
      catGet cats k = some c0 → c.words = c0.words →
      getAllWords (catSet cats k c) = getAllWords cats := by
  intro cats
  induction cats with
  | nil => intro k c c0 hc _; simp [catGet, List.find?] at hc
  | cons e t ih =>
    intro k c c0 hc hw
    by_cases h : e.1 == k
    · have he1 : e.1 = k := by simpa using h
      have hc0 : e.2 = c0 := by
        simpa [catGet, List.find?, h] using hc
      by_cases hm : k = "mixta"
      · simp [catSet, h, getAllWords, List.filter_cons, he1, hm]
      · have hkb : (k == "mixta") = false := by simp [hm]
        have heb : (e.1 == "mixta") = false := by simp [he1, hm]
        simp [catSet, h, getAllWords, List.filter_cons, hkb, heb, hw, ← hc0]
    · have hct : catGet t k = some c0 := by
        simpa [catGet, List.find?, h] using hc
      have hrec := ih k c c0 hct hw
      by_cases hm : e.1 == "mixta"
      · simp only [catSet, h, Bool.false_eq_true, if_false]
        simpa [getAllWords, List.filter_cons, hm] using hrec
      · simp only [catSet, h, Bool.false_eq_true, if_false]
        simp only [getAllWords, List.filter_cons, hm] at hrec ⊢
        simpa [getAllWords] using congrArg (e.2.words ++ ·) hrec

/-- Any state that has just gone through `updateMixedCategory` satisfies the
mixed-word invariant. -/
theorem mixedInvariant_updateMixed (cats : Categories) :
    mixedInvariant (updateMixedCategory cats) := by
  unfold mixedInvariant updateMixedCategory
  rw [catGet_catSet_self, getAllWords_catSet_mixta]
  rfl

theorem catGet_updateMixed_ne (cats : Categories) (k : String) (hk : k ≠ "mixta") :
    catGet (updateMixedCategory cats) k = catGet cats k := by
  unfold updateMixedCategory
  exact catGet_catSet_ne _ _ _ _ hk

/-- **C6**: the word list of `mixta` always equals the concatenation of the
word lists of all other categories (hence its word count is the sum of
their word counts): the invariant holds after module initialization and is
preserved by every public category-store operation. -/
theorem categoryStore_mixed_invariant :
    mixedInvariant (updateMixedCategory DEFAULT_CATEGORIES)
    ∧ (∀ stored, mixedInvariant (loadCustomCategories stored))
    ∧ (∀ cats, mixedInvariant cats →
        (∀ key words, mixedInvariant (updateCategoryWords key words cats))
        ∧ (∀ key word, mixedInvariant (addWordToCategory key word cats))
        ∧ (∀ key word, mixedInvariant (removeWordFromCategory key word cats))
        ∧ (∀ key nm em words, mixedInvariant (createCategory key nm em words cats).2)
        ∧ (∀ key, mixedInvariant (deleteCategory key cats).2)
        ∧ (∀ key nmU emU, mixedInvariant (updateCategoryMeta key nmU emU cats))
        ∧ (∀ key, mixedInvariant (resetCategoryToDefault key cats))
        ∧ mixedInvariant (resetCategoriesToDefault cats))
    ∧ (∀ cats, mixedInvariant cats →
        (catGet cats "mixta").map (fun c => c.words.length)
          = some (((cats.filter (fun e => !(e.1 == "mixta"))).map
              (fun e => e.2.words.length)).sum)) := by
  refine ⟨mixedInvariant_updateMixed _, ?_, ?_, ?_⟩
  · intro stored
    cases stored with
    | none => exact mixedInvariant_updateMixed _
    | some customCategories => exact mixedInvariant_updateMixed _
  · intro cats hinv
    refine ⟨?_, ?_, ?_, ?_, ?_, ?_, ?_, ?_⟩
    · intro key words
      unfold updateCategoryWords
      by_cases hk : key = "mixta"
      · simpa [hk] using hinv
      · cases hc : catGet cats key with
        | none => simpa [hk, hc] using hinv
        | some c => simpa [hk, hc] using mixedInvariant_updateMixed _
    · intro key word
      unfold addWordToCategory
      by_cases hk : key = "mixta"
      · simpa [hk] using hinv
      · cases hc : catGet cats key with
        | none => simpa [hk, hc] using hinv
        | some c =>
          by_cases hw : word ∈ c.words
          · simpa [hk, hc, hw] using hinv
          · simpa [hk, hc, hw] using mixedInvariant_updateMixed _
    · intro key word
      unfold removeWordFromCategory
      by_cases hk : key = "mixta"
      · simpa [hk] using hinv
      · cases hc : catGet cats key with
        | none => simpa [hk, hc] using hinv
        | some c => simpa [hk, hc] using mixedInvariant_updateMixed _
    · intro key nm em words
      unfold createCategory
      cases hc : catGet cats key with
      | none => simpa [hc] using mixedInvariant_updateMixed _
      | some c => simpa [hc] using hinv
    · intro key
      unfold deleteCategory
      by_cases hk : key = "mixta"
      · simpa [hk] using hinv
      · by_cases hcust : ((catGet cats key).map (fun c => c.isCustom)).getD false
        · simpa [hk, hcust] using mixedInvariant_updateMixed _
        · simpa [hk, hcust] using hinv
    · intro key nmU emU
      unfold updateCategoryMeta
      by_cases hk : key = "mixta"
      · simpa [hk] using hinv
      · cases hc : catGet cats key with
        | none => simpa [hk, hc] using hinv
        | some c =>
          simp only [hk, hc, if_false]
          unfold mixedInvariant
          rw [catGet_catSet_ne cats key "mixta" _ (Ne.symm hk),
            getAllWords_catSet_same_words cats key
              { c with name := nmU.getD c.name, emoji := emU.getD c.emoji } c hc rfl]
          exact hinv
    · intro key
      unfold resetCategoryToDefault
      by_cases hk : key = "mixta"
      · simpa [hk] using hinv
      · cases hc : catGet DEFAULT_CATEGORIES key with
        | none => simpa [hk, hc] using hinv
        | some d => simpa [hk, hc] using mixedInvariant_updateMixed _
    · exact mixedInvariant_updateMixed _
  · intro cats hinv
    unfold mixedInvariant at hinv
    cases hg : catGet cats "mixta" with
    | none => rw [hg] at hinv; simp at hinv
    | some c =>
      rw [hg] at hinv
      have hcw : c.words = getAllWords cats := by simpa using hinv
      have hsum : ((cats.filter (fun e => !(e.1 == "mixta"))).map
          (fun e => e.2.words.length)).sum = (getAllWords cats).length := by
        simp only [getAllWords, List.length_flatMap]
        rfl
      simp [hcw, hsum]

theorem categoryStore_mixed_invariant_witness :
    mixedInvariant
      [("mixta", { emoji := "", name := "", words := ["w1"] }),
        ("x", { emoji := "e", name := "n", words := ["w1"] })]
    ∧ mixedInvariant (addWordToCategory "x" "w2"
      [("mixta", { emoji := "", name := "", words := ["w1"] }),
        ("x", { emoji := "e", name := "n", words := ["w1"] })]) :=
  ⟨by decide,
    (categoryStore_mixed_invariant.2.2.1
      [("mixta", { emoji := "", name := "", words := ["w1"] }),
        ("x", { emoji := "e", name := "n", words := ["w1"] })]
      (by decide)).2.1 "x" "w2"⟩

theorem addWord_noop_mixta (word : String) (cats : Categories) :
    addWordToCategory "mixta" word cats = cats := by
  simp [addWordToCategory]

theorem addWord_noop_none (key word : String) (cats : Categories)
    (hc : catGet cats key = none) :
    addWordToCategory key word cats = cats := by
  unfold addWordToCategory
  by_cases hk : key = "mixta"
  · simp [hk]
  · simp [hk, hc]

theorem addWord_noop_of_mem (key word : String) (cats : Categories) (c : Category)
    (hc : catGet cats key = some c) (hw : word ∈ c.words) :
    addWordToCategory key word cats = cats := by
  unfold addWordToCategory
  by_cases hk : key = "mixta"
  · simp [hk]
  · simp [hk, hc, hw]

theorem catGet_addWord_new (key word : String) (cats : Categories) (c : Category)
    (hk : key ≠ "mixta") (hc : catGet cats key = some c) (hw : word ∉ c.words) :
    catGet (addWordToCategory key word cats) key
      = some { c with words := c.words ++ [word] } := by
  unfold addWordToCategory
  simp only [hk, if_false, hc, hw]
  rw [if_neg (by simpa using hw)]
  rw [catGet_updateMixed_ne _ _ hk, catGet_catSet_self]

/-- **C7**: `addWordToCategory` is idempotent (a second identical call
leaves the state unchanged), is a no-op on the `mixta` key and on unknown
keys, and appends a genuinely new word at the end of the category's word
list. -/
theorem addWordToCategory_props :
    (∀ key word cats, addWordToCategory key word (addWordToCategory key word cats)
        = addWordToCategory key word cats)
    ∧ (∀ word cats, addWordToCategory "mixta" word cats = cats)
    ∧ (∀ key word cats, catGet cats key = none → addWordToCategory key word cats = cats)
    ∧ (∀ key word cats c, key ≠ "mixta" → catGet cats key = some c → word ∉ c.words →
        catGet (addWordToCategory key word cats) key
          = some { c with words := c.words ++ [word] }) := by
  refine ⟨?_, addWord_noop_mixta, addWord_noop_none, catGet_addWord_new⟩
  intro key word cats
  by_cases hk : key = "mixta"
  · subst hk
    rw [addWord_noop_mixta, addWord_noop_mixta]
  · cases hc : catGet cats key with
    | none => rw [addWord_noop_none key word cats hc, addWord_noop_none key word cats hc]
    | some c =>
      by_cases hw : word ∈ c.words
      · rw [addWord_noop_of_mem key word cats c hc hw,
          addWord_noop_of_mem key word cats c hc hw]
      · exact addWord_noop_of_mem key word _ _
          (catGet_addWord_new key word cats c hk hc hw) (by simp)

theorem addWordToCategory_props_witness :
    ("x" ≠ "mixta"
      ∧ catGet [("mixta", { emoji := "", name := "", words := ["w1"] }),
          ("x", { emoji := "e", name := "n", words := ["w1"] })] "x"
        = some { emoji := "e", name := "n", words := ["w1"] }
      ∧ "w2" ∉ ({ emoji := "e", name := "n", words := ["w1"] } : Category).words)
    ∧ catGet (addWordToCategory "x" "w2"
        [("mixta", { emoji := "", name := "", words := ["w1"] }),
          ("x", { emoji := "e", name := "n", words := ["w1"] })]) "x"
      = some { emoji := "e", name := "n", words := ["w1", "w2"] } :=
  ⟨⟨by decide, by decide, by decide⟩,
    addWordToCategory_props.2.2.2 "x" "w2"
      [("mixta", { emoji := "", name := "", words := ["w1"] }),
        ("x", { emoji := "e", name := "n", words := ["w1"] })]
      { emoji := "e", name := "n", words := ["w1"] }
      (by decide) (by decide) (by decide)⟩

/- ============================================================
   C8: isCategoryModified after addWordToCategory (words-array aliasing)
   ============================================================ -/

/-- **C8** (code bug): from the freshly initialized store,
`addWordToCategory('comida', 'Arepa')` — a built-in key whose shipped
default word list does not contain the word — leaves
`isCategoryModified('comida')` returning `false`, although the category's
current word list now genuinely differs from the shipped default.  The
`push` mutates the words array that `CATEGORIES.comida` still shares with
`DEFAULT_CATEGORIES.comida` after the shallow copy on line 245, so the
comparison on lines 746-748 compares the mutated array with itself (and
`saveCustomCategories` consequently never persists the added word). -/
theorem addWord_aliasing_code_bug :
    (catGet DEFAULT_CATEGORIES "comida").map (fun c => c.words.contains "Arepa")
      = some false
    ∧ isCategoryModifiedHeap "comida"
        (addWordToCategoryHeap "comida" "Arepa" initHeap) = false
    ∧ ((refGet (addWordToCategoryHeap "comida" "Arepa" initHeap).cats "comida").map
        (fun c => arrGet (addWordToCategoryHeap "comida" "Arepa" initHeap).arrays c.wordsRef))
      ≠ (catGet DEFAULT_CATEGORIES "comida").map (fun c => c.words) := by
  refine ⟨by decide, by decide, by decide⟩

/- ============================================================
   C9 / C10: game-config persistence
   ============================================================ -/

theorem all_isStr_map_str (ps : List String) :
    (ps.map Json.str).all Json.isStr = true := by
  induction ps with
  | nil => rfl
  | cons p t ih => simpa [Json.isStr] using ih

/-- **C9**: `saveGameState` persists only the three fields `players`,
`selectedCategory` and `selectedVariant` (merged over the re-read
previously persisted config, every other `GameState` field ignored), and
`loadGameState` immediately after such a successful save returns exactly
those three saved values. -/
theorem saveGameState_persistable_roundtrip :
    (∀ state stored, ∃ fields,
        (saveGameState state stored).2 = some (StoredBlob.wellFormed (Json.obj fields))
        ∧ ∀ kv ∈ fields,
            kv.1 = "players" ∨ kv.1 = "selectedCategory" ∨ kv.1 = "selectedVariant")
    ∧ (∀ (ps : List String) (cat var : String) sh cpi ii ji pr sw st cs stored,
        saveGameState
            { players := some ps, selectedCategory := some cat, selectedVariant := some var,
              shuffledPlayers := sh, currentPlayerIndex := cpi, impostorIndices := ii,
              jesterIndex := ji, playerRoles := pr, secretWord := sw, starterPlayer := st,
              currentScreen := cs } stored
          = (true, some (StoredBlob.wellFormed (Json.obj
              [("players", Json.arr (ps.map Json.str)),
               ("selectedCategory", Json.str cat),
               ("selectedVariant", Json.str var)])))
        ∧ (loadGameState (saveGameState
            { players := some ps, selectedCategory := some cat, selectedVariant := some var,
              shuffledPlayers := sh, currentPlayerIndex := cpi, impostorIndices := ii,
              jesterIndex := ji, playerRoles := pr, secretWord := sw, starterPlayer := st,
              currentScreen := cs } stored).2).1
          = Json.obj
              [("players", Json.arr (ps.map Json.str)),
               ("selectedCategory", Json.str cat),
               ("selectedVariant", Json.str var)])
    ∧ (∀ (ps0 : List String) (cat var : String),
        saveGameState { selectedCategory := some cat, selectedVariant := some var }
            (some (StoredBlob.wellFormed
              (Json.obj [("players", Json.arr (ps0.map Json.str))])))
          = (true, some (StoredBlob.wellFormed (Json.obj
              [("players", Json.arr (ps0.map Json.str)),
               ("selectedCategory", Json.str cat),
               ("selectedVariant", Json.str var)])))) := by
  refine ⟨?_, ?_, ?_⟩
  case refine_3 =>
    intro ps0 cat var
    have hvalid0 : isValidGameState
        (Json.obj [("players", Json.arr (ps0.map Json.str))]) = true := by
      simp [isValidGameState, jGet, List.find?, all_isStr_map_str]
    simp [saveGameState, loadGameState, hvalid0, jGet, List.find?, Option.orElse]
  · intro state stored
    refine ⟨_, rfl, ?_⟩
    intro kv hkv
    simp only [List.mem_append] at hkv
    rcases hkv with (h | h) | h
    · revert h
      cases (state.players.map (fun ps => Json.arr (ps.map Json.str))).orElse
        (fun _ => match (loadGameState stored).1 with
          | .obj fields => jGet fields "players"
          | _ => none) with
      | none => intro h; simp at h
      | some v => intro h; left; simp at h; rw [h]
    · revert h
      cases (state.selectedCategory.map Json.str).orElse
        (fun _ => match (loadGameState stored).1 with
          | .obj fields => jGet fields "selectedCategory"
          | _ => none) with
      | none => intro h; simp at h
      | some v => intro h; right; left; simp at h; rw [h]
    · revert h
      cases (state.selectedVariant.map Json.str).orElse
        (fun _ => match (loadGameState stored).1 with
          | .obj fields => jGet fields "selectedVariant"
          | _ => none) with
      | none => intro h; simp at h
      | some v => intro h; right; right; simp at h; rw [h]
  · intro ps cat var sh cpi ii ji pr sw st cs stored
    have hvalid : isValidGameState (Json.obj
        [("players", Json.arr (ps.map Json.str)),
         ("selectedCategory", Json.str cat),
         ("selectedVariant", Json.str var)]) = true := by
      simp [isValidGameState, jGet, List.find?, all_isStr_map_str, Json.isStr]
    refine ⟨rfl, ?_⟩
    show (loadGameState (some (StoredBlob.wellFormed _))).1 = _
    simp [loadGameState, hvalid]

theorem saveGameState_persistable_roundtrip_witness :
    saveGameState
        { players := some ["Ana", "Bea", "Cid"], selectedCategory := some "animales",
          selectedVariant := some "classic" } none
      = (true, some (StoredBlob.wellFormed (Json.obj
          [("players", Json.arr (["Ana", "Bea", "Cid"].map Json.str)),
           ("selectedCategory", Json.str "animales"),
           ("selectedVariant", Json.str "classic")])))
    ∧ (loadGameState (saveGameState
        { players := some ["Ana", "Bea", "Cid"], selectedCategory := some "animales",
          selectedVariant := some "classic" } none).2).1
      = Json.obj
          [("players", Json.arr (["Ana", "Bea", "Cid"].map Json.str)),
           ("selectedCategory", Json.str "animales"),
           ("selectedVariant", Json.str "classic")] :=
  saveGameState_persistable_roundtrip.2.1 ["Ana", "Bea", "Cid"] "animales" "classic"
    none none none none none none none none none

/-- **C10 (amended)**: `loadGameState` validates the three persistable
fields (`players` an array of strings, `selectedCategory` and
`selectedVariant` strings, when present), deletes the stored entry and
returns `{}` on parse failure or failed validation, and everything it
returns passes that same validation; values stored under *other*
`GameState` keys (or a top-level JSON array) are passed through
unvalidated, so the result need not conform to the declared field types of
`Partial<GameState>`. -/
theorem loadGameState_validation :
    (∀ stored, isValidGameState (loadGameState stored).1 = true)
    ∧ loadGameState none = (Json.obj [], none)
    ∧ loadGameState (some StoredBlob.malformed) = (Json.obj [], none)
    ∧ (∀ j, isValidGameState j = false →
        loadGameState (some (StoredBlob.wellFormed j)) = (Json.obj [], none))
    ∧ (∀ j, isValidGameState j = true →
        loadGameState (some (StoredBlob.wellFormed j))
          = (j, some (StoredBlob.wellFormed j))) := by
  refine ⟨?_, rfl, rfl, ?_, ?_⟩
  · intro stored
    match stored with
    | none => rfl
    | some .malformed => rfl
    | some (.wellFormed j) =>
      by_cases hv : isValidGameState j
      · simpa [loadGameState, hv] using hv
      · simp only [loadGameState, hv, Bool.false_eq_true, if_false]
        rfl
  · intro j hv
    simp [loadGameState, hv]
  · intro j hv
    simp [loadGameState, hv]

theorem loadGameState_validation_witness :
    isValidGameState (Json.obj []) = true
    ∧ loadGameState (some (StoredBlob.wellFormed (Json.obj [])))
        = (Json.obj [], some (StoredBlob.wellFormed (Json.obj []))) :=
  ⟨rfl, loadGameState_validation.2.2.2.2 (Json.obj []) rfl⟩

/-- **C10 counterexample**: the stored blob
`{"currentPlayerIndex": "x"}` passes `isValidGameState` (only the three
persistable fields are inspected), so `loadGameState` returns it as-is —
a value that does not conform to the declared field types of
`Partial<GameState>` (`currentPlayerIndex` must be a number). -/
theorem loadGameState_nonconforming_counterexample :
    (loadGameState (some (StoredBlob.wellFormed
        (Json.obj [("currentPlayerIndex", Json.str "x")])))).1
      = Json.obj [("currentPlayerIndex", Json.str "x")]
    ∧ conformsToPartialGameState
        (loadGameState (some (StoredBlob.wellFormed
          (Json.obj [("currentPlayerIndex", Json.str "x")])))).1 = false :=
  ⟨rfl, rfl⟩

/-- Every `secureRandom` outcome is of the shape a tape draw produces
(soundness of the tape abstraction used by the game functions). -/
theorem secureRandom_exists_draw (e : EntropyOutcome) (q : ℚ) (max : Nat)
    (hmax : 0 < max) (hq0 : 0 ≤ q) (hq1 : q < 1) :
    ∃ r : Nat, secureRandom e q max = ((r % max : Nat) : ℤ) := by
  obtain ⟨h0, h1⟩ := secureRandom_mem_range e q max hmax hq0 hq1
  refine ⟨(secureRandom e q max).toNat, ?_⟩
  have hlt : (secureRandom e q max).toNat < max := by omega
  rw [Nat.mod_eq_of_lt hlt, Int.toNat_of_nonneg h0]
